import Mathlib

/-!
# Verification of the confuse-jsonschema resolver and validator templates

This file shallowly embeds the `$ref` resolver (`resolver.py`) and the
validator templates (`templates.py`, `formats.py`) of the
confuse-jsonschema package, and proves or refutes the specification
claims about them.

Python JSON values are modelled by `JValue`; Python dicts are insertion
ordered association lists (genuine dicts have pairwise distinct keys);
Python floats are modelled by exact rationals (every float appearing in
the claims is exactly representable).  The resolver's mutable state
(`resolution_stack`, `_resolved_cache`) is threaded explicitly; its
mutually recursive procedures are expressed as a single function
`resolveStep`, structurally recursive on a fuel parameter.  A run that
exhausts its fuel returns `none`; a source execution that terminates is
mirrored by every sufficiently large fuel.
-/

/-- A Python/JSON value as manipulated by the package: `None`, `bool`,
`int`, `float` (modelled as an exact rational), `str`, `list` and `dict`
(insertion ordered association list). -/
inductive JValue where
  | null
  | bool (b : Bool)
  | int (n : Int)
  | float (q : Rat)
  | str (s : String)
  | arr (items : List JValue)
  | obj (entries : List (String × JValue))

mutual
/-- Structural (Python `==`) equality test on `JValue`. -/
def beqV : JValue → JValue → Bool
  | .null, .null => true
  | .bool a, .bool b => a == b
  | .int a, .int b => a == b
  | .float a, .float b => a == b
  | .str a, .str b => a == b
  | .arr xs, .arr ys => beqL xs ys
  | .obj xs, .obj ys => beqE xs ys
  | _, _ => false

def beqL : List JValue → List JValue → Bool
  | [], [] => true
  | x :: xs, y :: ys => beqV x y && beqL xs ys
  | _, _ => false

def beqE : List (String × JValue) → List (String × JValue) → Bool
  | [], [] => true
  | (k, v) :: xs, (l, w) :: ys => k == l && beqV v w && beqE xs ys
  | _, _ => false
end

mutual
theorem beqV_refl : (a : JValue) → beqV a a = true
  | .null => rfl
  | .bool b => by simp [beqV]
  | .int n => by simp [beqV]
  | .float q => by simp [beqV]
  | .str s => by simp [beqV]
  | .arr xs => by simpa [beqV] using beqL_refl xs
  | .obj xs => by simpa [beqV] using beqE_refl xs

theorem beqL_refl : (xs : List JValue) → beqL xs xs = true
  | [] => rfl
  | x :: xs => by simp [beqL, beqV_refl x, beqL_refl xs]

theorem beqE_refl : (xs : List (String × JValue)) → beqE xs xs = true
  | [] => rfl
  | (k, v) :: xs => by simp [beqE, beqV_refl v, beqE_refl xs]
end

/-- Two `JValue`s on which the structural equality test computes `false`
are provably distinct. -/
theorem jne_of_beqV_false {a b : JValue} (h : beqV a b = false) : a ≠ b := by
  intro e
  rw [e, beqV_refl b] at h
  exact Bool.noConfusion h

/-- Python dict read access `d[key]`: the value stored at `key`
(first match; genuine dicts have distinct keys). -/
def lookupEntries : List (String × JValue) → String → Option JValue
  | [], _ => none
  | (k, v) :: rest, key => if k = key then some v else lookupEntries rest key

/-- Python dict write `d[key] = v`: overwrite the value in place when the
key is present (keeping its insertion position), otherwise append. -/
def setKey : List (String × JValue) → String → JValue → List (String × JValue)
  | [], key, v => [(key, v)]
  | (k, w) :: rest, key, v =>
    if k = key then (key, v) :: rest else (k, w) :: setKey rest key v

/-- Python `sep.join(xs)`. -/
def joinSep (sep : String) : List String → String
  | [] => ""
  | [x] => x
  | x :: xs => x ++ sep ++ joinSep sep xs

/-! ## Character-level models of the Python string primitives used by
`resolver.py`.  They are written by structural recursion on character
lists so that concrete runs reduce definitionally. -/

/-- One pass of Python `str.replace(ab, c)` for a two-character pattern
`ab` replaced by the single character `c`: left-to-right,
non-overlapping, replacing every occurrence. -/
def replace2 (a b : Char) (c : Char) : List Char → List Char
  | [] => []
  | [x] => [x]
  | x :: y :: rest =>
    if x = a ∧ y = b then c :: replace2 a b c rest
    else x :: replace2 a b c (y :: rest)

/-- The unescaping `segment.replace("~1", "/").replace("~0", "~")` from
`_resolve_json_pointer`: unescape `~1` to `/` first, then `~0` to `~`. -/
def unescapeSegment (s : String) : String :=
  ⟨replace2 '~' '0' '~' (replace2 '~' '1' '/' s.data)⟩

/-- Python `str.split(sep)` for a single-character separator (no limit):
`"".split(sep) = [""]`, and a trailing separator yields a final empty
segment. -/
def splitChar (sep : Char) : List Char → List (List Char)
  | [] => [[]]
  | c :: rest =>
    if c = sep then [] :: splitChar sep rest
    else
      match splitChar sep rest with
      | [] => [[c]]
      | h :: t => (c :: h) :: t

/-- Split a character list at the first `'#'`: `none` when there is no
`'#'` at all. -/
def splitAtFirstHash : List Char → List Char × Option (List Char)
  | [] => ([], none)
  | c :: rest =>
    if c = '#' then ([], some rest)
    else
      match splitAtFirstHash rest with
      | (a, b) => (c :: a, b)

/-- Python `urllib.parse.urldefrag`: split the URI at the first `'#'` into
(url, fragment); a URI without `'#'` has the empty fragment. -/
def pyUrldefrag (s : String) : String × String :=
  match splitAtFirstHash s.data with
  | (a, none) => (⟨a⟩, "")
  | (a, some b) => (⟨a⟩, ⟨b⟩)

/-- Python `str.startswith(c)` for a single character. -/
def headIs (c : Char) (s : String) : Bool :=
  match s.data with
  | [] => false
  | d :: _ => d = c

/-- Parse a nonempty all-digit character list as a natural number. -/
def digitsToNatAux : List Char → Nat → Option Nat
  | [], acc => some acc
  | c :: rest, acc =>
    if c.isDigit then digitsToNatAux rest (acc * 10 + (c.toNat - '0'.toNat))
    else none

/-- Python `int(segment)` restricted to an optional sign followed by
digits.  (Python `int` additionally strips surrounding whitespace and
allows underscores between digits; such segments do not arise in any
claim.) -/
def pyInt? (s : String) : Option Int :=
  match s.data with
  | [] => none
  | c :: rest =>
    if c = '-' then
      if rest = [] then none else (digitsToNatAux rest 0).map (fun n => -(n : Int))
    else if c = '+' then
      if rest = [] then none else (digitsToNatAux rest 0).map (fun n => (n : Int))
    else (digitsToNatAux (c :: rest) 0).map (fun n => (n : Int))

/-! ## The resolver (`resolver.py`) -/

/-- The `ValueError`s raised by `SchemaResolver`, tagged by raise site.
`circular` carries the full cycle path message
(`" -> ".join(stack + [ref_uri])`).  `refNotString` and `mergeTypeError`
stand for the `TypeError`s Python would raise when a `$ref` value is not
a string or a merge target is not a dict; no claim exercises them. -/
inductive RErr where
  | circular (path : String)
  | external (refUri : String)
  | invalidFragment (fragment : String)
  | pointerNoSlash (pointer : String)
  | keyNotFound (segment : String)
  | indexOutOfBounds (index : Int)
  | invalidIndex (segment : String)
  | nonContainer (segment : String)
  | refNotString
  | mergeTypeError
deriving DecidableEq

/-- The state of a `SchemaResolver` instance: the root schema document,
the resolution stack (cycle detection) and the per-URI cache. -/
structure RState where
  rootSchema : JValue
  stack : List String
  cache : List (String × JValue)

/-- Model of `SchemaResolver.__init__`: empty stack and cache. -/
def SchemaResolver.init (rootSchema : JValue) : RState := ⟨rootSchema, [], []⟩

/-- The JSON-Pointer walk of `_resolve_json_pointer` over already split
segments: unescape each segment, then descend into object keys or
numeric in-bounds array indices. -/
def walkPointer : List (List Char) → JValue → Except RErr JValue
  | [], current => .ok current
  | seg :: rest, current =>
    let segment := unescapeSegment ⟨seg⟩
    match current with
    | .obj entries =>
      match lookupEntries entries segment with
      | none => .error (.keyNotFound segment)
      | some v => walkPointer rest v
    | .arr items =>
      match pyInt? segment with
      | none => .error (.invalidIndex segment)
      | some index =>
        if h : 0 ≤ index ∧ index.toNat < items.length then
          walkPointer rest (items.get ⟨index.toNat, h.2⟩)
        else .error (.indexOutOfBounds index)
    | _ => .error (.nonContainer segment)

/-- Model of `SchemaResolver._resolve_json_pointer`: requires a leading `/`,
special-cases the pointer `"/"` to the whole document, otherwise splits
`pointer[1:]` on `/` and walks the segments. -/
def resolveJsonPointer (pointer : String) (document : JValue) : Except RErr JValue :=
  if ¬ headIs '/' pointer then .error (.pointerNoSlash pointer)
  else if pointer = "/" then .ok document
  else walkPointer (splitChar '/' (pointer.data.drop 1)) document

/-- The merge `merged_schema = copy.deepcopy(resolved)` followed by
`merged_schema[key] = value` for every non-`$ref` sibling key of the
referring node, in iteration order. -/
def mergeEntries (base : List (String × JValue)) (entries : List (String × JValue)) :
    List (String × JValue) :=
  entries.foldl (fun acc kv => if kv.1 = "$ref" then acc else setKey acc kv.1 kv.2) base

/-- The call forms of the mutually recursive resolver procedures:
`ref` is `resolve_ref`, `nested` is `_resolve_nested_refs`,
`nestedEntries`/`nestedItems`/`child` are the value/item loops of the
dict rebuilding branch of `_resolve_nested_refs`. -/
inductive RCall where
  | ref (refUri : String)
  | nested (schema : JValue)
  | nestedEntries (entries : List (String × JValue))
  | nestedItems (items : List JValue)
  | child (v : JValue)

/-- One interpreter for all resolver procedures, structurally recursive
on fuel (`none` = out of fuel; never reached by a terminating source
execution given enough fuel).  Faithfully mirrors
`SchemaResolver.resolve_ref` / `_resolve_nested_refs`, including the
`try`/`finally` stack pop on every exit path and the cache writes. -/
def resolveStep : Nat → RState → RCall → Option (RState × Except RErr JValue)
  | 0, _, _ => none
  | fuel + 1, st, c =>
    match c with
    | .ref refUri =>
      -- resolve_ref: cache check, cycle check, urldefrag, dispatch.
      match lookupEntries st.cache refUri with
      | some v => some (st, .ok v)
      | none =>
        if refUri ∈ st.stack then
          some (st, .error (.circular (joinSep " -> " (st.stack ++ [refUri]))))
        else
          match pyUrldefrag refUri with
          | (uri, fragment) =>
            if uri ≠ "" then some (st, .error (.external refUri))
            else if fragment = "" then
              -- Empty fragment means root schema (cached, no push, no
              -- nested resolution).
              some ({ st with cache := setKey st.cache refUri st.rootSchema },
                    .ok st.rootSchema)
            else if ¬ headIs '/' fragment then
              some (st, .error (.invalidFragment fragment))
            else
              -- push, try { pointer walk; nested resolution } finally pop,
              -- then cache.
              let st1 := { st with stack := st.stack ++ [refUri] }
              match resolveJsonPointer fragment st1.rootSchema with
              | .error e => some ({ st1 with stack := st1.stack.dropLast }, .error e)
              | .ok resolved =>
                match resolveStep fuel st1 (.nested resolved) with
                | none => none
                | some (st2, .error e) =>
                  some ({ st2 with stack := st2.stack.dropLast }, .error e)
                | some (st2, .ok resolved2) =>
                  some ({ st2 with
                            stack := st2.stack.dropLast
                            cache := setKey st2.cache refUri resolved2 }, .ok resolved2)
    | .nested schema =>
      match schema with
      | .obj entries =>
        match lookupEntries entries "$ref" with
        | some (.str refUri) =>
          match resolveStep fuel st (.ref refUri) with
          | none => none
          | some (st1, .error e) => some (st1, .error e)
          | some (st1, .ok resolvedSchema) =>
            if entries.length > 1 then
              -- Sibling keywords: merge into a (deep copy of the)
              -- resolved target, then resolve the merged result again.
              match resolvedSchema with
              | .obj base =>
                resolveStep fuel st1 (.nested (.obj (mergeEntries base entries)))
              | _ => some (st1, .error .mergeTypeError)
            else some (st1, .ok resolvedSchema)
        | some _ => some (st, .error .refNotString)
        | none => resolveStep fuel st (.nestedEntries entries)
      | _ => some (st, .ok schema)
    | .nestedEntries entries =>
      -- the `for key, value in schema.items()` rebuild loop
      match entries with
      | [] => some (st, .ok (.obj []))
      | (k, v) :: rest =>
        match resolveStep fuel st (.child v) with
        | none => none
        | some (st1, .error e) => some (st1, .error e)
        | some (st1, .ok v') =>
          match resolveStep fuel st1 (.nestedEntries rest) with
          | none => none
          | some (st2, .error e) => some (st2, .error e)
          | some (st2, .ok (.obj rest')) => some (st2, .ok (.obj ((k, v') :: rest')))
          | some (st2, .ok _) => some (st2, .ok (.obj []))  -- unreachable
    | .nestedItems items =>
      -- the list comprehension: recurse into dict items only
      match items with
      | [] => some (st, .ok (.arr []))
      | x :: rest =>
        let stepx : Option (RState × Except RErr JValue) :=
          match x with
          | .obj _ => resolveStep fuel st (.nested x)
          | _ => some (st, .ok x)
        match stepx with
        | none => none
        | some (st1, .error e) => some (st1, .error e)
        | some (st1, .ok x') =>
          match resolveStep fuel st1 (.nestedItems rest) with
          | none => none
          | some (st2, .error e) => some (st2, .error e)
          | some (st2, .ok (.arr rest')) => some (st2, .ok (.arr (x' :: rest')))
          | some (st2, .ok _) => some (st2, .ok (.arr []))  -- unreachable
    | .child v =>
      -- dispatch for one dict value: dicts are recursed, lists are
      -- item-mapped, everything else is copied unchanged
      match v with
      | .obj _ => resolveStep fuel st (.nested v)
      | .arr items => resolveStep fuel st (.nestedItems items)
      | _ => some (st, .ok v)

/-- Model of `SchemaResolver.resolve_ref` (fuelled). -/
def resolve_ref (fuel : Nat) (st : RState) (refUri : String) :
    Option (RState × Except RErr JValue) :=
  resolveStep fuel st (.ref refUri)

/-- Model of `SchemaResolver._resolve_nested_refs` (fuelled). -/
def resolve_nested_refs (fuel : Nat) (st : RState) (schema : JValue) :
    Option (RState × Except RErr JValue) :=
  resolveStep fuel st (.nested schema)

mutual
/-- Test that a value contains no `"$ref"` dict key anywhere (at any depth, inside
objects or arrays). -/
def refFreeV : JValue → Bool
  | .obj entries => refFreeE entries
  | .arr items => refFreeI items
  | _ => true

def refFreeE : List (String × JValue) → Bool
  | [] => true
  | (k, v) :: rest => (k != "$ref") && refFreeV v && refFreeE rest

def refFreeI : List JValue → Bool
  | [] => true
  | x :: rest => refFreeV x && refFreeI rest
end

-- sanity checks on the embedding (small concrete runs)
example :
    resolve_ref 10 (SchemaResolver.init (.obj [("a", .int 3)])) "#/a" =
      some (⟨.obj [("a", .int 3)], [], [("#/a", .int 3)]⟩, .ok (.int 3)) := rfl

example :
    resolve_ref 10 (SchemaResolver.init (.obj [("a", .int 3)])) "#/b" =
      some (⟨.obj [("a", .int 3)], [], []⟩, .error (.keyNotFound "b")) := rfl

example :
    resolve_ref 10 (SchemaResolver.init (.obj [("a~b", .obj [("c/d", .int 7)])]))
        "#/a~0b/c~1d" =
      some (⟨.obj [("a~b", .obj [("c/d", .int 7)])], [],
             [("#/a~0b/c~1d", .int 7)]⟩, .ok (.int 7)) := rfl

example :
    resolve_ref 10 (SchemaResolver.init (.obj [("a", .arr [.int 5, .int 6])])) "#/a/1" =
      some (⟨.obj [("a", .arr [.int 5, .int 6])], [],
             [("#/a/1", .int 6)]⟩, .ok (.int 6)) := rfl

/-! ## Validator templates (`templates.py`, with the external `confuse`
base templates modelled as the spec describes them) -/

/-- A compiled template's `convert` operation: a pure function from the
raw value to either the typed value or a `ConfigError` message.  (The
`view` argument of the Python methods is used only to locate error
messages and does not influence acceptance.) -/
abbrev Tmpl := JValue → Except String JValue

/-- Acceptance test: did a `convert` call succeed (no `ConfigError`)? -/
def isOkE : Except String JValue → Bool
  | .ok _ => true
  | .error _ => false

/-- Acceptance test for resolver results. -/
def isOkR : Except RErr JValue → Bool
  | .ok _ => true
  | .error _ => false

/-- Model of `confuse.String.convert` (external base library): accepts
exactly `str` values; when a compiled pattern is installed it must
match (the `re` engine is abstracted as a predicate on strings). -/
def confuseStringConvert (pat : Option (String → Bool)) (value : JValue) :
    Except String String :=
  match value with
  | .str s =>
    match pat with
    | some p => if p s then .ok s else .error "must match the pattern"
    | none => .ok s
  | _ => .error "must be a string"

/-- The process-wide `FORMAT_VALIDATORS` registry of `formats.py`:
format name to pure predicate. -/
abbrev FormatRegistry := List (String × (String → Bool))

/-- Model of `formats.get_format_validator`: dictionary `get`, `none`
when the format name is not registered. -/
def get_format_validator : FormatRegistry → String → Option (String → Bool)
  | [], _ => none
  | (k, f) :: rest, name =>
    if k = name then some f else get_format_validator rest name

/-- The constraint fields of a `SchemaString` template (the compiled
regex is abstracted as a predicate; `string_format` is an optional
format name looked up in the registry at evaluation time). -/
structure SchemaString where
  min_length : Option Nat
  max_length : Option Nat
  pattern : Option (String → Bool)
  string_format : Option String

/-- Model of `SchemaString.convert`: the parent `confuse.String` check
(type and pattern), then `minLength`/`maxLength` by character count,
then the format check — skipped entirely when `string_format` is falsy
(None or the empty string), a no-op when the name is not registered, a
failure when the registered predicate rejects the value.  The helper
`checkOpt` expresses one optional constraint check: fail with its
message when the constraint is present and violated, otherwise
continue. -/
def checkOpt {α : Type} (o : Option α) (bad : α → Bool) (msg : α → String)
    (k : Except String JValue) : Except String JValue :=
  match o with
  | some m => if bad m then .error (msg m) else k
  | none => k

/-- Model of `SchemaString.convert` (see above). -/
def SchemaString.convert (t : SchemaString) (reg : FormatRegistry) (value : JValue) :
    Except String JValue :=
  match confuseStringConvert t.pattern value with
  | .error e => .error e
  | .ok s =>
    checkOpt t.min_length (fun m => decide (s.length < m))
      (fun m => "must be at least " ++ toString m ++ " characters long")
    (checkOpt t.max_length (fun m => decide (s.length > m))
      (fun m => "must be at most " ++ toString m ++ " characters long")
    -- `if self.string_format:` — Python truthiness skips None and ""
    (match t.string_format with
     | some f =>
       if f ≠ "" then
         match get_format_validator reg f with
         | some fv => if ¬ fv s then .error ("must be a valid " ++ f) else .ok (.str s)
         | none => .ok (.str s)
       else .ok (.str s)
     | none => .ok (.str s)))

/-- The constraint fields of a `SchemaInteger` template. -/
structure SchemaInteger where
  minimum : Option Int
  maximum : Option Int
  exclusive_minimum : Option Int
  exclusive_maximum : Option Int
  multiple_of : Option Int

/-- Python `int(f)` applied to a float: truncation toward zero (the
rational is `num/den` with positive denominator, so `Int.tdiv` isexactly
Python truncation). -/
def pyIntOfFloat (q : Rat) : Int := Int.tdiv q.num (Int.ofNat q.den)

/-- Model of `SchemaInteger.convert`: booleans are rejected explicitly,
floats only accepted (and coerced) when exactly integral, `int` passes
through; other types are rejected by the parent `confuse.Integer`
(external).  Then the five JSON Schema bound checks run in source order.
(Python `%` agrees with `Int.emod` for the positive moduli of interest;
`multipleOf: 0` would raise `ZeroDivisionError` in Python and is not
exercised by any claim.) -/
def SchemaInteger.convert (t : SchemaInteger) (value : JValue) :
    Except String JValue :=
  match (match value with
         | .bool _ => .error "must be an integer, not a boolean"
         | .float q =>
           -- `if value != int(value): fail` else `value = int(value)`
           if q = ((pyIntOfFloat q : Int) : Rat) then .ok (pyIntOfFloat q)
           else .error "must be an integer, not a float"
         | .int n => .ok n
         | _ => .error "must be an integer" : Except String Int) with
  | .error e => .error e
  | .ok n =>
    checkOpt t.minimum (fun m => decide (n < m))
      (fun m => "must be at least " ++ toString m)
    (checkOpt t.maximum (fun m => decide (n > m))
      (fun m => "must be at most " ++ toString m)
    (checkOpt t.exclusive_minimum (fun m => decide (n ≤ m))
      (fun m => "must be greater than " ++ toString m)
    (checkOpt t.exclusive_maximum (fun m => decide (n ≥ m))
      (fun m => "must be less than " ++ toString m)
    (checkOpt t.multiple_of (fun m => decide (n % m ≠ 0))
      (fun m => "must be a multiple of " ++ toString m)
    (.ok (.int n))))))

/-- The constraint fields of a `SchemaNumber` template. -/
structure SchemaNumber where
  minimum : Option Rat
  maximum : Option Rat
  exclusive_minimum : Option Rat
  exclusive_maximum : Option Rat
  multiple_of : Option Rat

/-- Python float `%` (floored modulo, for a nonzero modulus; a zero
modulus raises in Python and is not exercised by any claim). -/
def pyFloatMod (q m : Rat) : Rat := q - m * (⌊q / m⌋ : Int)

/-- Model of `SchemaNumber.convert`: booleans rejected, `int` and
`float` accepted directly (and the original value, with its original
type, is returned); other types rejected by the parent `confuse.Number`
(external).  The bound checks compare numerically. -/
def SchemaNumber.convert (t : SchemaNumber) (value : JValue) :
    Except String JValue :=
  match (match value with
         | .bool _ => .error "must be a number, not a boolean"
         | .int n => .ok ((n : Int) : Rat)
         | .float x => .ok x
         | _ => .error "must be numeric" : Except String Rat) with
  | .error e => .error e
  | .ok q =>
    checkOpt t.minimum (fun m => decide (q < m))
      (fun m => "must be at least " ++ toString m)
    (checkOpt t.maximum (fun m => decide (q > m))
      (fun m => "must be at most " ++ toString m)
    (checkOpt t.exclusive_minimum (fun m => decide (q ≤ m))
      (fun m => "must be greater than " ++ toString m)
    (checkOpt t.exclusive_maximum (fun m => decide (q ≥ m))
      (fun m => "must be less than " ++ toString m)
    (checkOpt t.multiple_of (fun m => decide (pyFloatMod q m ≠ 0))
      (fun m => "must be a multiple of " ++ toString m)
    (.ok value)))))

/-- The validation loop of `AllOf.convert`: every branch template
converts the original `value`; `ConfigError`s are collected in order;
the running result keeps the value produced by the most recent
successful branch. -/
def AllOf.loop (value : JValue) : List Tmpl → List String → JValue →
    List String × JValue
  | [], errors, finalValue => (errors, finalValue)
  | t :: rest, errors, finalValue =>
    match t value with
    | .ok r => AllOf.loop value rest errors r
    | .error e => AllOf.loop value rest (errors ++ [e]) finalValue

/-- Model of `AllOf.convert`: run the loop; fail when any branch failed,
otherwise return the value from the last successful branch (the original
value when there are no branches). -/
def AllOf.convert (templates : List Tmpl) (value : JValue) :
    Except String JValue :=
  match AllOf.loop value templates [] value with
  | ([], finalValue) => .ok finalValue
  | (errors, _) =>
    .error ("must match all templates; failures: " ++ joinSep "; " errors)

/-- The enumeration loop of `SchemaOneOf.convert`: collect (index,
converted value) for each accepting branch and a tagged message for each
rejecting branch, in branch order. -/
def SchemaOneOf.loop (value : JValue) : Nat → List Tmpl →
    List (Nat × JValue) × List String
  | _, [] => ([], [])
  | i, t :: rest =>
    match SchemaOneOf.loop value (i + 1) rest with
    | (valids, errors) =>
      match t value with
      | .ok r => ((i, r) :: valids, errors)
      | .error e => (valids, ("template " ++ toString i ++ ": " ++ e) :: errors)

/-- Model of `SchemaOneOf.convert`: zero matching branches fail with the
collected errors; two or more matching branches fail listing the index
of every matching branch; exactly one match returns its value. -/
def SchemaOneOf.convert (templates : List Tmpl) (value : JValue) :
    Except String JValue :=
  match SchemaOneOf.loop value 0 templates with
  | (valids, errors) =>
    match valids with
    | [] =>
      .error ("must match exactly one template; no templates matched. Errors: "
        ++ joinSep "; " errors)
    | [iv] => .ok iv.2
    | ivs =>
      .error ("must match exactly one template; multiple templates matched: "
        ++ joinSep ", " (ivs.map (fun p => toString p.1)))

/-- Read an optional non-negative integer keyword (`minLength`,
`maxLength`) from a schema node. -/
def natOfKey (entries : List (String × JValue)) (key : String) : Option Nat :=
  match lookupEntries entries key with
  | some (.int n) => if 0 ≤ n then some n.toNat else none
  | _ => none

/-- Read an optional integer keyword from a schema node. -/
def intOfKey (entries : List (String × JValue)) (key : String) : Option Int :=
  match lookupEntries entries key with
  | some (.int n) => some n
  | _ => none

/-- Read an optional numeric keyword from a schema node. -/
def ratOfKey (entries : List (String × JValue)) (key : String) : Option Rat :=
  match lookupEntries entries key with
  | some (.int n) => some ((n : Int) : Rat)
  | some (.float q) => some q
  | _ => none

/-- Read an optional string keyword (`format`) from a schema node. -/
def strOfKey (entries : List (String × JValue)) (key : String) : Option String :=
  match lookupEntries entries key with
  | some (.str s) => some s
  | _ => none

/-- Modelled from the spec: the schema compiler `to_template`
(`to_template.py` is not among the provided sources; only its callers
are).  Following spec sections 4.3 and 4.4 it dispatches on the declared
`type` — or infers a string shape from a present `minLength`/`maxLength`
when `type` is absent — and installs the declared scalar constraint
keywords; `none` stands for an `UnsupportedSchema` compilation failure
on shapes outside the fragment exercised by the claims (schemas with a
`pattern` keyword are also outside it, because the regex engine is
abstracted). -/
def to_template (reg : FormatRegistry) (schema : JValue) : Option Tmpl :=
  match schema with
  | .obj entries =>
    match lookupEntries entries "type" with
    | some (.str "string") =>
      some (SchemaString.convert
        ⟨natOfKey entries "minLength", natOfKey entries "maxLength",
         none, strOfKey entries "format"⟩ reg)
    | some (.str "integer") =>
      some (SchemaInteger.convert
        ⟨intOfKey entries "minimum", intOfKey entries "maximum",
         intOfKey entries "exclusiveMinimum", intOfKey entries "exclusiveMaximum",
         intOfKey entries "multipleOf"⟩)
    | some (.str "number") =>
      some (SchemaNumber.convert
        ⟨ratOfKey entries "minimum", ratOfKey entries "maximum",
         ratOfKey entries "exclusiveMinimum", ratOfKey entries "exclusiveMaximum",
         ratOfKey entries "multipleOf"⟩)
    | some _ => none
    | none =>
      if (lookupEntries entries "minLength").isSome
          || (lookupEntries entries "maxLength").isSome then
        some (SchemaString.convert
          ⟨natOfKey entries "minLength", natOfKey entries "maxLength",
           none, strOfKey entries "format"⟩ reg)
      else none
  | _ => none

/-- Model of `Conditional.convert`: compile and test the `if` schema,
choose the `then`/`else` branch by the test, re-apply `if` (recording
its error only when no branch is chosen), apply the branch, then combine
per the JSON Schema semantics block of the source.  The outer `none`
stands for a `to_template` compilation failure (not a `ConfigError`). -/
def Conditional.convert (reg : FormatRegistry) (if_schema : JValue)
    (then_schema else_schema : Option JValue) (value : JValue) :
    Option (Except String JValue) :=
  match to_template reg if_schema with
  | none => none
  | some ifT =>
    -- Test if the `if` condition matches
    let ifMatches := isOkE (ifT value)
    -- Choose the appropriate branch schema
    let branchSchema := if ifMatches then then_schema else else_schema
    -- Apply the `if` validation (final value and error recording)
    match (match ifT value with
           | .ok r => (true, r, ([] : List String))
           | .error e =>
             (false, value,
              if branchSchema.isNone then ["if condition: " ++ e] else [])) with
    | (ifPassed, fv1, errs1) =>
      -- Apply the branch schema if present
      let branchStep : Option (Bool × JValue × List String) :=
        match branchSchema with
        | none => some (true, fv1, [])
        | some bs =>
          match to_template reg bs with
          | none => none
          | some bt =>
            match bt value with
            | .ok r => some (true, r, [])
            | .error e =>
              some (false, fv1,
                [(if ifMatches then "then" else "else") ++ " condition: " ++ e])
      match branchStep with
      | none => none
      | some (branchPassed, fv2, errs2) =>
        -- Determine overall success based on JSON Schema semantics
        let overall : Bool :=
          if ifMatches then ifPassed && branchPassed
          else if branchSchema.isSome then branchPassed
          else ifPassed
        let errsFinal :=
          if ¬ ifMatches ∧ branchSchema.isNone ∧ ¬ ifPassed
          then errs1 ++ errs2 ++ ["if condition failed"]
          else errs1 ++ errs2
        if overall = false ∧ errsFinal ≠ [] then
          some (.error ("conditional validation failed: " ++ joinSep "; " errsFinal))
        else some (.ok fv2)

/-- Acceptance test for a `Conditional.convert` outcome (a compilation
failure or a `ConfigError` both count as not accepted). -/
def acceptedC : Option (Except String JValue) → Bool
  | some (.ok _) => true
  | _ => false

/-! ## Spec-side statement of JSON-Pointer addressing (used as the
independent right-hand side of the pointer-resolution claim) -/

/-- Spec words: an array index segment must be numeric — here, a
nonempty digit string. -/
def specNat? (s : String) : Option Nat :=
  match s.data with
  | [] => none
  | l => digitsToNatAux l 0

/-- Spec words: sequentially index the document with the unescaped
segments — object keys must be present, array indices numeric and in
bounds. -/
def specSubtree : List String → JValue → Option JValue
  | [], doc => some doc
  | seg :: rest, doc =>
    match doc with
    | .obj entries =>
      match lookupEntries entries seg with
      | some v => specSubtree rest v
      | none => none
    | .arr items =>
      match specNat? seg with
      | some n =>
        if h : n < items.length then specSubtree rest (items.get ⟨n, h⟩)
        else none
      | none => none
    | _ => none

/-- Spec words: the pointer's segments are obtained by splitting after
the leading `/` on `/` and unescaping `~1` to `/` then `~0` to `~`, in
that order. -/
def specSegments (pointer : String) : List String :=
  (splitChar '/' (pointer.data.drop 1)).map (fun cs => unescapeSegment ⟨cs⟩)

/-- Spec-side JSON-Pointer resolution: the exact subtree of `doc`
reached by sequentially indexing with the pointer's unescaped
segments. -/
def specPointerSubtree (pointer : String) (doc : JValue) : Option JValue :=
  specSubtree (specSegments pointer) doc

-- sanity checks for the template embedding
example :
    SchemaInteger.convert ⟨none, none, none, none, none⟩ (.bool true) =
      .error "must be an integer, not a boolean" := rfl

example :
    SchemaInteger.convert ⟨none, none, none, none, none⟩
        (.float ((15 : Int) : Rat)) = .ok (.int 15) := rfl

example :
    SchemaInteger.convert ⟨none, none, none, none, none⟩
        (.float ⟨31, 2, by decide, by decide⟩) =
      .error "must be an integer, not a float" := rfl

example :
    AllOf.convert [fun v => .ok v, fun _ => .error "no"] (.int 1) =
      .error "must match all templates; failures: no" := rfl

example :
    SchemaOneOf.convert [fun v => .ok v, fun _ => .error "no", fun v => .ok v]
        (.int 1) =
      .error "must match exactly one template; multiple templates matched: 0, 2" := rfl

example :
    Conditional.convert [] (.obj [("type", .str "string")])
        (some (.obj [("minLength", .int 3)]))
        (some (.obj [("type", .str "number")])) (.str "ab") =
      some (.error
        "conditional validation failed: then condition: must be at least 3 characters long") := rfl

example :
    Conditional.convert [] (.obj [("type", .str "string")])
        (some (.obj [("minLength", .int 3)]))
        (some (.obj [("type", .str "number")])) (.str "abc") =
      some (.ok (.str "abc")) := rfl

example :
    Conditional.convert [] (.obj [("type", .str "string")])
        (some (.obj [("minLength", .int 3)]))
        (some (.obj [("type", .str "number")])) (.int 5) =
      some (.ok (.int 5)) := rfl

example :
    Conditional.convert [] (.obj [("type", .str "string")])
        (some (.obj [("minLength", .int 3)]))
        (some (.obj [("type", .str "number")])) (.bool true) =
      some (.error
        "conditional validation failed: else condition: must be a number, not a boolean") := rfl

example : specPointerSubtree "/a~1b/c" (.obj [("a/b", .obj [("c", .int 7)])]) =
    some (.int 7) := rfl

/-! ## Lemmas about the resolver -/

/-- Popping the URI just pushed restores the stack. -/
theorem dropLast_push (l : List String) (a : String) : (l ++ [a]).dropLast = l := by
  simp

/-- A dict with no `"$ref"` key anywhere has no top-level `"$ref"`. -/
theorem lookupEntries_refFree :
    ∀ es : List (String × JValue), refFreeE es = true →
      lookupEntries es "$ref" = none := by
  intro es h
  induction es with
  | nil => rfl
  | cons kv rest ih =>
    obtain ⟨k, v⟩ := kv
    simp only [refFreeE, Bool.and_eq_true, bne_iff_ne, ne_eq] at h
    simp only [lookupEntries, if_neg h.1.1]
    exact ih h.2

/-- On a value with no `"$ref"` anywhere, any completed
`_resolve_nested_refs`-family run is the identity: the value is rebuilt
unchanged and the resolver state is untouched. -/
theorem resolveStep_refFree :
    ∀ fuel : Nat,
      (∀ st v out, refFreeV v = true →
        resolveStep fuel st (.nested v) = some out → out = (st, .ok v)) ∧
      (∀ st es out, refFreeE es = true →
        resolveStep fuel st (.nestedEntries es) = some out →
          out = (st, .ok (.obj es))) ∧
      (∀ st xs out, refFreeI xs = true →
        resolveStep fuel st (.nestedItems xs) = some out →
          out = (st, .ok (.arr xs))) ∧
      (∀ st v out, refFreeV v = true →
        resolveStep fuel st (.child v) = some out → out = (st, .ok v)) := by
  intro fuel
  induction fuel with
  | zero =>
    refine ⟨?_, ?_, ?_, ?_⟩ <;> · intro _ _ _ _ h; simp [resolveStep] at h
  | succ fuel ih =>
    obtain ⟨ihN, ihE, ihI, ihC⟩ := ih
    refine ⟨?_, ?_, ?_, ?_⟩
    · -- `.nested`
      intro st v out hfree h
      cases v with
      | obj entries =>
        have hE : refFreeE entries = true := by simpa [refFreeV] using hfree
        rw [show resolveStep (fuel + 1) st (.nested (.obj entries)) =
              resolveStep fuel st (.nestedEntries entries) by
            simp [resolveStep, lookupEntries_refFree entries hE]] at h
        have := ihE st entries out hE h
        simpa using this
      | null => simp [resolveStep] at h; simp [← h]
      | bool b => simp [resolveStep] at h; simp [← h]
      | int n => simp [resolveStep] at h; simp [← h]
      | float q => simp [resolveStep] at h; simp [← h]
      | str s => simp [resolveStep] at h; simp [← h]
      | arr items => simp [resolveStep] at h; simp [← h]
    · -- `.nestedEntries`
      intro st es out hfree h
      cases es with
      | nil => simp [resolveStep] at h; simp [← h]
      | cons kv rest =>
        obtain ⟨k, v⟩ := kv
        simp only [refFreeE, Bool.and_eq_true, bne_iff_ne, ne_eq] at hfree
        obtain ⟨⟨hk, hv⟩, hrest⟩ := hfree
        simp only [resolveStep] at h
        cases hc : resolveStep fuel st (.child v) with
        | none => rw [hc] at h; simp at h
        | some out1 =>
          rw [ihC st v out1 hv hc] at hc
          rw [hc] at h
          simp only [] at h
          cases hc2 : resolveStep fuel st (.nestedEntries rest) with
          | none => rw [hc2] at h; simp at h
          | some out2 =>
            rw [ihE st rest out2 hrest hc2] at hc2
            rw [hc2] at h
            simp at h
            simp [← h]
    · -- `.nestedItems`
      intro st xs out hfree h
      cases xs with
      | nil => simp [resolveStep] at h; simp [← h]
      | cons x rest =>
        simp only [refFreeI, Bool.and_eq_true] at hfree
        obtain ⟨hx, hrest⟩ := hfree
        -- the per-item step is `.nested` for dicts and the identity otherwise
        cases x with
        | obj entries =>
          simp only [resolveStep] at h
          cases hc : resolveStep fuel st (.nested (.obj entries)) with
          | none => rw [hc] at h; simp at h
          | some out1 =>
            rw [ihN st (.obj entries) out1 hx hc] at hc
            rw [hc] at h
            simp only [] at h
            cases hc2 : resolveStep fuel st (.nestedItems rest) with
            | none => rw [hc2] at h; simp at h
            | some out2 =>
              rw [ihI st rest out2 hrest hc2] at hc2
              rw [hc2] at h
              simp at h
              simp [← h]
        | null =>
          simp only [resolveStep] at h
          cases hc2 : resolveStep fuel st (.nestedItems rest) with
          | none => rw [hc2] at h; simp at h
          | some out2 =>
            rw [ihI st rest out2 hrest hc2] at hc2
            rw [hc2] at h
            simp at h
            simp [← h]
        | bool b =>
          simp only [resolveStep] at h
          cases hc2 : resolveStep fuel st (.nestedItems rest) with
          | none => rw [hc2] at h; simp at h
          | some out2 =>
            rw [ihI st rest out2 hrest hc2] at hc2
            rw [hc2] at h
            simp at h
            simp [← h]
        | int n =>
          simp only [resolveStep] at h
          cases hc2 : resolveStep fuel st (.nestedItems rest) with
          | none => rw [hc2] at h; simp at h
          | some out2 =>
            rw [ihI st rest out2 hrest hc2] at hc2
            rw [hc2] at h
            simp at h
            simp [← h]
        | float q =>
          simp only [resolveStep] at h
          cases hc2 : resolveStep fuel st (.nestedItems rest) with
          | none => rw [hc2] at h; simp at h
          | some out2 =>
            rw [ihI st rest out2 hrest hc2] at hc2
            rw [hc2] at h
            simp at h
            simp [← h]
        | str s =>
          simp only [resolveStep] at h
          cases hc2 : resolveStep fuel st (.nestedItems rest) with
          | none => rw [hc2] at h; simp at h
          | some out2 =>
            rw [ihI st rest out2 hrest hc2] at hc2
            rw [hc2] at h
            simp at h
            simp [← h]
        | arr items =>
          simp only [resolveStep] at h
          cases hc2 : resolveStep fuel st (.nestedItems rest) with
          | none => rw [hc2] at h; simp at h
          | some out2 =>
            rw [ihI st rest out2 hrest hc2] at hc2
            rw [hc2] at h
            simp at h
            simp [← h]
    · -- `.child`
      intro st v out hfree h
      cases v with
      | obj entries =>
        rw [show resolveStep (fuel + 1) st (.child (.obj entries)) =
              resolveStep fuel st (.nested (.obj entries)) from by
            simp [resolveStep]] at h
        exact ihN st (.obj entries) out hfree h
      | arr items =>
        have hI : refFreeI items = true := by simpa [refFreeV] using hfree
        rw [show resolveStep (fuel + 1) st (.child (.arr items)) =
              resolveStep fuel st (.nestedItems items) from by
            simp [resolveStep]] at h
        have := ihI st items out hI h
        simpa using this
      | null => simp [resolveStep] at h; simp [← h]
      | bool b => simp [resolveStep] at h; simp [← h]
      | int n => simp [resolveStep] at h; simp [← h]
      | float q => simp [resolveStep] at h; simp [← h]
      | str s => simp [resolveStep] at h; simp [← h]

/-- Every completed resolver call (success or error) restores the
resolution stack to exactly its contents at entry. -/
theorem resolveStep_stack :
    ∀ (fuel : Nat) (st : RState) (c : RCall) (out : RState × Except RErr JValue),
      resolveStep fuel st c = some out → out.1.stack = st.stack := by
  intro fuel
  induction fuel with
  | zero => intro st c out h; simp [resolveStep] at h
  | succ fuel ih =>
    intro st c out h
    cases c with
    | ref refUri =>
      simp only [resolveStep] at h
      cases hcache : lookupEntries st.cache refUri with
      | some v =>
        rw [hcache] at h
        simp only [] at h
        injection h with h
        subst h
        rfl
      | none =>
        rw [hcache] at h
        simp only [] at h
        by_cases hmem : refUri ∈ st.stack
        · rw [if_pos hmem] at h
          injection h with h; subst h; rfl
        · rw [if_neg hmem] at h
          rcases hud : pyUrldefrag refUri with ⟨uri, frag⟩
          rw [hud] at h
          simp only [] at h
          by_cases huri : uri = ""
          · subst huri
            rw [if_neg (by simp)] at h
            by_cases hfrag : frag = ""
            · subst hfrag
              rw [if_pos rfl] at h
              injection h with h; subst h; rfl
            · rw [if_neg hfrag] at h
              by_cases hslash : headIs '/' frag = true
              · rw [if_neg (by simp [hslash])] at h
                try simp only [] at h
                cases hp : resolveJsonPointer frag st.rootSchema with
                | error e =>
                  rw [hp] at h
                  simp only [] at h
                  injection h with h; subst h
                  simp
                | ok resolved =>
                  rw [hp] at h
                  simp only [] at h
                  cases hc : resolveStep fuel
                      { st with stack := st.stack ++ [refUri] } (.nested resolved) with
                  | none => rw [hc] at h; simp at h
                  | some out2 =>
                    obtain ⟨st2, r2⟩ := out2
                    have hst2 :=
                      ih { st with stack := st.stack ++ [refUri] }
                        (.nested resolved) (st2, r2) hc
                    rw [hc] at h
                    cases r2 with
                    | error e =>
                      try simp only [] at h
                      injection h with h; subst h
                      try simp only [] at hst2
                      simp [hst2]
                    | ok resolved2 =>
                      try simp only [] at h
                      injection h with h; subst h
                      try simp only [] at hst2
                      simp [hst2]
              · rw [if_pos (by simpa using hslash)] at h
                injection h with h; subst h; rfl
          · rw [if_pos huri] at h
            injection h with h; subst h; rfl
    | nested schema =>
      cases schema with
      | obj entries =>
        simp only [resolveStep] at h
        split at h
        · -- arm `some (.str refUri)`
          next refUri heq =>
            split at h
            · simp at h
            · next st1 e heq2 =>
                injection h with h; subst h
                exact ih st (.ref refUri) _ heq2
            · next st1 resolvedSchema heq2 =>
                have hst1 := ih st (.ref refUri) _ heq2
                split at h
                · split at h
                  · exact (ih _ _ _ h).trans hst1
                  · injection h with h; subst h; exact hst1
                · injection h with h; subst h; exact hst1
        · -- arm `some _` with a non-string `$ref`
          injection h with h; subst h; rfl
        · -- arm `none`: no `$ref` key, rebuild the dict
          exact ih st (.nestedEntries entries) out h
      | null => simp only [resolveStep] at h; injection h with h; subst h; rfl
      | bool b => simp only [resolveStep] at h; injection h with h; subst h; rfl
      | int n => simp only [resolveStep] at h; injection h with h; subst h; rfl
      | float q => simp only [resolveStep] at h; injection h with h; subst h; rfl
      | str s => simp only [resolveStep] at h; injection h with h; subst h; rfl
      | arr items => simp only [resolveStep] at h; injection h with h; subst h; rfl
    | nestedEntries entries =>
      cases entries with
      | nil => simp only [resolveStep] at h; injection h with h; subst h; rfl
      | cons kv rest =>
        obtain ⟨k, v⟩ := kv
        simp only [resolveStep] at h
        cases hc : resolveStep fuel st (.child v) with
        | none => rw [hc] at h; simp at h
        | some out1 =>
          obtain ⟨st1, r1⟩ := out1
          have hst1 := ih st (.child v) (st1, r1) hc
          rw [hc] at h
          cases r1 with
          | error e =>
            try simp only [] at h
            injection h with h; subst h; exact hst1
          | ok v' =>
            try simp only [] at h
            cases hc2 : resolveStep fuel st1 (.nestedEntries rest) with
            | none => rw [hc2] at h; simp at h
            | some out2 =>
              obtain ⟨st2, r2⟩ := out2
              have hst2 := ih st1 (.nestedEntries rest) (st2, r2) hc2
              rw [hc2] at h
              cases r2 with
              | error e =>
                try simp only [] at h
                injection h with h; subst h; exact hst2.trans hst1
              | ok rv =>
                try simp only [] at h
                cases rv <;>
                  · try simp only [] at h
                    injection h with h; subst h; exact hst2.trans hst1
    | nestedItems items =>
      cases items with
      | nil => simp only [resolveStep] at h; injection h with h; subst h; rfl
      | cons x rest =>
        have main :
            ∀ (st1 : RState) (x' : JValue), st1.stack = st.stack →
              (match resolveStep fuel st1 (.nestedItems rest) with
                | none => none
                | some (st1, .error e) => some (st1, Except.error e)
                | some (st2, .ok (.arr rest')) =>
                    some (st2, Except.ok (JValue.arr (x' :: rest')))
                | some (st2, .ok a) => some (st2, Except.ok (JValue.arr []))) =
                  some out →
              out.1.stack = st.stack := by
          intro st1 x' hst1 h
          cases hc2 : resolveStep fuel st1 (.nestedItems rest) with
          | none => rw [hc2] at h; simp at h
          | some out2 =>
            obtain ⟨st2, r2⟩ := out2
            have hst2 := ih st1 (.nestedItems rest) (st2, r2) hc2
            rw [hc2] at h
            cases r2 with
            | error e =>
              try simp only [] at h
              injection h with h; subst h; exact hst2.trans hst1
            | ok rv =>
              try simp only [] at h
              cases rv <;>
                · try simp only [] at h
                  injection h with h; subst h; exact hst2.trans hst1
        cases x with
        | obj entries =>
          simp only [resolveStep] at h
          cases hc : resolveStep fuel st (.nested (.obj entries)) with
          | none => rw [hc] at h; simp at h
          | some out1 =>
            obtain ⟨st1, r1⟩ := out1
            have hst1 := ih st (.nested (.obj entries)) (st1, r1) hc
            rw [hc] at h
            cases r1 with
            | error e =>
              try simp only [] at h
              injection h with h; subst h; exact hst1
            | ok x' => exact main st1 x' hst1 h
        | null => simp only [resolveStep] at h; exact main st .null rfl h
        | bool b => simp only [resolveStep] at h; exact main st (.bool b) rfl h
        | int n => simp only [resolveStep] at h; exact main st (.int n) rfl h
        | float q => simp only [resolveStep] at h; exact main st (.float q) rfl h
        | str s => simp only [resolveStep] at h; exact main st (.str s) rfl h
        | arr items2 => simp only [resolveStep] at h; exact main st (.arr items2) rfl h
    | child v =>
      cases v with
      | obj entries =>
        rw [show resolveStep (fuel + 1) st (.child (.obj entries)) =
              resolveStep fuel st (.nested (.obj entries)) from by
            simp [resolveStep]] at h
        exact ih st (.nested (.obj entries)) out h
      | arr items =>
        rw [show resolveStep (fuel + 1) st (.child (.arr items)) =
              resolveStep fuel st (.nestedItems items) from by
            simp [resolveStep]] at h
        exact ih st (.nestedItems items) out h
      | null => simp only [resolveStep] at h; injection h with h; subst h; rfl
      | bool b => simp only [resolveStep] at h; injection h with h; subst h; rfl
      | int n => simp only [resolveStep] at h; injection h with h; subst h; rfl
      | float q => simp only [resolveStep] at h; injection h with h; subst h; rfl
      | str s => simp only [resolveStep] at h; injection h with h; subst h; rfl

/-- Prefixing a URI with `#` makes `urldefrag` return an empty url part
and the rest as fragment. -/
theorem pyUrldefrag_hash (p : String) : pyUrldefrag ("#" ++ p) = ("", p) := by
  cases p with
  | mk l =>
    simp [pyUrldefrag, splitAtFirstHash,
      show (("#" ++ String.mk l)).data = '#' :: l from rfl]

/-- A string starting with a character is nonempty. -/
theorem headIs_ne_empty {c : Char} {s : String} (h : headIs c s = true) :
    s ≠ "" := by
  intro e
  subst e
  simp [headIs] at h

/-- A segment that is numeric in the spec sense (nonempty digits) parses
the same way under Python `int`. -/
theorem pyInt?_of_specNat? {s : String} {n : Nat} (h : specNat? s = some n) :
    pyInt? s = some ((n : Nat) : Int) := by
  unfold specNat? at h
  unfold pyInt?
  cases hd : s.data with
  | nil => rw [hd] at h; simp at h
  | cons c rest =>
    rw [hd] at h
    simp only [] at h
    have hcd : c.isDigit = true := by
      by_contra hc
      simp only [Bool.not_eq_true] at hc
      simp [digitsToNatAux, hc] at h
    have hcm : c ≠ '-' := by
      intro e; subst e; exact absurd hcd (by decide)
    have hcp : c ≠ '+' := by
      intro e; subst e; exact absurd hcd (by decide)
    simp only [if_neg hcm, if_neg hcp, h]
    simp

/-- The source pointer walk agrees with the spec-side sequential
indexing wherever the latter is defined. -/
theorem walkPointer_of_specSubtree :
    ∀ (segs : List (List Char)) (doc t : JValue),
      specSubtree (segs.map (fun cs => unescapeSegment ⟨cs⟩)) doc = some t →
      walkPointer segs doc = .ok t := by
  intro segs
  induction segs with
  | nil =>
    intro doc t h
    simp only [List.map_nil, specSubtree] at h
    simp only [walkPointer]
    rw [Option.some.inj h]
  | cons seg rest ih =>
    intro doc t h
    simp only [List.map_cons, specSubtree] at h
    cases doc with
    | obj entries =>
      try simp only [] at h
      cases hl : lookupEntries entries (unescapeSegment ⟨seg⟩) with
      | none => rw [hl] at h; simp at h
      | some v =>
        rw [hl] at h
        simp only [] at h
        simp only [walkPointer, hl]
        exact ih v t h
    | arr items =>
      try simp only [] at h
      cases hn : specNat? (unescapeSegment ⟨seg⟩) with
      | none => rw [hn] at h; simp at h
      | some n =>
        rw [hn] at h
        simp only [] at h
        by_cases hb : n < items.length
        · rw [dif_pos hb] at h
          have hpy := pyInt?_of_specNat? hn
          simp only [walkPointer, hpy]
          have hcond : (0 : Int) ≤ (n : Int) ∧ ((n : Int)).toNat < items.length := by
            exact ⟨Int.ofNat_nonneg n, by simpa using hb⟩
          rw [dif_pos hcond]
          exact ih _ t h
        · rw [dif_neg hb] at h; simp at h
    | null => simp at h
    | bool b => simp at h
    | int n => simp at h
    | float q => simp at h
    | str s => simp at h

/-! ## Claim C1 — pointer resolution returns the addressed subtree -/

/-- C1 counterexample documents: the root for the `"/"` pointer, and a
root whose addressed subtree itself contains a `$ref`. -/
def C1slashD : JValue := .obj [("", .int 5)]

def C1refD : JValue := .obj [("a", .obj [("$ref", .str "#/b")]), ("b", .int 1)]

/-- C1, refuted as stated: (1) for the one-segment pointer `"/"` with
document `{"": 5}` the spec-side indexing reaches the subtree `5`, but
`resolve_ref("#/")` returns the whole document (the code special-cases
the pointer `"/"`); (2) when the addressed subtree is
`{"$ref": "#/b"}`, `resolve_ref("#/a")` returns the dereferenced value
`1`, not the exact subtree. -/
theorem C1_counterexample :
    specPointerSubtree "/" C1slashD = some (.int 5) ∧
    resolve_ref 10 (SchemaResolver.init C1slashD) ("#" ++ "/") =
      some (⟨C1slashD, [], [("#/", C1slashD)]⟩, .ok C1slashD) ∧
    C1slashD ≠ .int 5 ∧
    specPointerSubtree "/a" C1refD = some (.obj [("$ref", .str "#/b")]) ∧
    resolve_ref 10 (SchemaResolver.init C1refD) ("#" ++ "/a") =
      some (⟨C1refD, [], [("#/b", .int 1), ("#/a", .int 1)]⟩, .ok (.int 1)) ∧
    JValue.int 1 ≠ .obj [("$ref", .str "#/b")] :=
  ⟨rfl, rfl, jne_of_beqV_false rfl, rfl, rfl, jne_of_beqV_false rfl⟩

/-- C1 (amended): for every root document `D` and JSON Pointer `p`
starting with `/`, other than the bare `"/"` (which the code
special-cases to the whole document), whose unescaped segments
(`~1` to `/` then `~0` to `~`) resolve in `D` to a subtree containing no
`$ref` anywhere, any completed `resolve_ref("#"+p)` run on a fresh
resolver returns exactly that subtree.  (When the subtree contains a
`$ref` it is returned dereferenced instead.) -/
theorem C1_resolve_ref_exact_subtree
    (D : JValue) (p : String) (t : JValue) (fuel : Nat)
    (out : RState × Except RErr JValue)
    (hslash : headIs '/' p = true) (hroot : p ≠ "/")
    (hspec : specPointerSubtree p D = some t)
    (hfree : refFreeV t = true)
    (hrun : resolve_ref fuel (SchemaResolver.init D) ("#" ++ p) = some out) :
    out.2 = .ok t := by
  cases fuel with
  | zero => simp [resolve_ref, resolveStep] at hrun
  | succ fuel =>
    simp only [resolve_ref, SchemaResolver.init, resolveStep, lookupEntries] at hrun
    rw [if_neg (List.not_mem_nil ("#" ++ p))] at hrun
    rw [pyUrldefrag_hash p] at hrun
    simp only [] at hrun
    rw [if_neg (by simp : ¬ ("" : String) ≠ "")] at hrun
    rw [if_neg (headIs_ne_empty hslash)] at hrun
    rw [if_neg (by simp [hslash])] at hrun
    try simp only [] at hrun
    have hwalk : walkPointer (splitChar '/' (p.data.drop 1)) D = .ok t :=
      walkPointer_of_specSubtree _ D t hspec
    rw [show resolveJsonPointer p D = walkPointer (splitChar '/' (p.data.drop 1)) D from by
      simp [resolveJsonPointer, hslash, hroot]] at hrun
    rw [hwalk] at hrun
    simp only [] at hrun
    cases hc : resolveStep fuel ⟨D, [] ++ ["#" ++ p], []⟩ (.nested t) with
    | none => rw [hc] at hrun; simp at hrun
    | some out2 =>
      rw [(resolveStep_refFree fuel).1 _ t out2 hfree hc] at hc
      rw [hc] at hrun
      try simp only [] at hrun
      injection hrun with hrun
      rw [← hrun]

/-- C1 witness document: object keys exercising both pointer escapes. -/
def C1wD : JValue := .obj [("a/b", .obj [("c", .int 7)]), ("x~y", .int 9)]

/-- C1 witness output: the concrete completed run. -/
def C1wOut : RState × Except RErr JValue :=
  (⟨C1wD, [], [("#" ++ "/a~1b/c", .int 7)]⟩, .ok (.int 7))

theorem C1_witness :
    headIs '/' "/a~1b/c" = true ∧
    "/a~1b/c" ≠ "/" ∧
    specPointerSubtree "/a~1b/c" C1wD = some (.int 7) ∧
    refFreeV (.int 7) = true ∧
    resolve_ref 12 (SchemaResolver.init C1wD) ("#" ++ "/a~1b/c") = some C1wOut ∧
    C1wOut.2 = .ok (.int 7) :=
  ⟨rfl, by decide, rfl, rfl, rfl,
    C1_resolve_ref_exact_subtree C1wD "/a~1b/c" (.int 7) 12 C1wOut
      rfl (by decide) rfl rfl rfl⟩

/-! ## Claim C2 — circular reference detection -/

/-- C2 length-1 cycle document. -/
def C2selfD : JValue := .obj [("a", .obj [("$ref", .str "#/a")])]

/-- C2 length-2 mutual cycle document. -/
def C2mutualD : JValue :=
  .obj [("a", .obj [("$ref", .str "#/b")]), ("b", .obj [("$ref", .str "#/a")])]

/-- C2 counterexample document: a node whose `$ref` is the empty
fragment `"#"`, pointing back to the root that contains it. -/
def C2emptyFragD : JValue := .obj [("a", .obj [("$ref", .str "#")])]

/-- C2, refuted as stated: the claim covers a node whose `$ref` is the
empty fragment `"#"` pointing back to a root containing that node, but
resolving it SUCCEEDS — the empty-fragment branch of `resolve_ref`
neither pushes the stack nor checks for cycles, and returns the root
document with its (self-referential) `$ref` still unresolved. -/
theorem C2_counterexample :
    resolve_ref 10 (SchemaResolver.init C2emptyFragD) "#/a" =
      some (⟨C2emptyFragD, [], [("#", C2emptyFragD), ("#/a", C2emptyFragD)]⟩,
        .ok C2emptyFragD) ∧
    (resolve_ref 10 (SchemaResolver.init C2emptyFragD) "#/a").map
        (fun out => isOkR out.2) = some true :=
  ⟨rfl, rfl⟩

/-- C2 (amended): resolving a URI that is already on the resolution
stack and not cached fails immediately with the `CircularReference`
`ValueError` whose message names the full cycle path (the stack plus the
repeated URI joined by `" -> "`); consequently cycles among
non-empty-fragment URIs fail regardless of length — demonstrated for a
length-1 self-reference and a length-2 mutual cycle — while a `$ref`
with the bare empty-fragment URI `"#"` bypasses cycle detection and
resolves to the root unresolved. -/
theorem C2_circular_reference :
    (∀ (fuel : Nat) (st : RState) (refUri : String),
       lookupEntries st.cache refUri = none → refUri ∈ st.stack →
       resolve_ref (fuel + 1) st refUri =
         some (st, .error (.circular (joinSep " -> " (st.stack ++ [refUri]))))) ∧
    resolve_ref 10 (SchemaResolver.init C2selfD) "#/a" =
      some (⟨C2selfD, [], []⟩, .error (.circular "#/a -> #/a")) ∧
    resolve_ref 10 (SchemaResolver.init C2mutualD) "#/a" =
      some (⟨C2mutualD, [], []⟩, .error (.circular "#/a -> #/b -> #/a")) := by
  refine ⟨?_, rfl, rfl⟩
  intro fuel st refUri hcache hmem
  simp only [resolve_ref, resolveStep, hcache]
  rw [if_pos hmem]

theorem C2_witness :
    lookupEntries (⟨C2selfD, ["#/x"], []⟩ : RState).cache "#/x" = none ∧
    "#/x" ∈ (⟨C2selfD, ["#/x"], []⟩ : RState).stack ∧
    resolve_ref 6 (⟨C2selfD, ["#/x"], []⟩ : RState) "#/x" =
      some ((⟨C2selfD, ["#/x"], []⟩ : RState), .error (.circular "#/x -> #/x")) :=
  ⟨rfl, by decide,
    C2_circular_reference.1 5 ⟨C2selfD, ["#/x"], []⟩ "#/x" rfl (by decide)⟩

/-! ## Claim C3 — idempotence of nested resolution -/

/-- C3 root document: contains a `$ref` that one pass would resolve. -/
def C3rootD : JValue := .obj [("x", .obj [("$ref", .str "#/y")]), ("y", .int 1)]

/-- C3 node under test: a bare empty-fragment reference. -/
def C3refNode : JValue := .obj [("$ref", .str "#")]

/-- C3, refuted as stated: with root `{"x": {"$ref": "#/y"}, "y": 1}`,
one pass of `_resolve_nested_refs` on `{"$ref": "#"}` succeeds and
returns the root itself — which still contains a `$ref` — and a second
pass succeeds with a different value, so the operation is not
idempotent and one pass does not remove every `$ref`. -/
theorem C3_counterexample :
    resolve_nested_refs 10 (SchemaResolver.init C3rootD) C3refNode =
      some (⟨C3rootD, [], [("#", C3rootD)]⟩, .ok C3rootD) ∧
    refFreeV C3rootD = false ∧
    resolve_nested_refs 10 (⟨C3rootD, [], [("#", C3rootD)]⟩ : RState) C3rootD =
      some (⟨C3rootD, [], [("#", C3rootD), ("#/y", .int 1)]⟩,
        .ok (.obj [("x", .int 1), ("y", .int 1)])) ∧
    JValue.obj [("x", .int 1), ("y", .int 1)] ≠ C3rootD :=
  ⟨rfl, rfl, rfl, jne_of_beqV_false rfl⟩

/-- C3 (amended): whenever a successful `_resolve_nested_refs` pass
produces a result with no remaining `$ref` anywhere, a second completed
pass returns that result unchanged (with the resolver state untouched);
a single pass can leave `$ref` entries behind only through resolution of
an empty-fragment `"#"` reference, whose target is returned
unresolved. -/
theorem C3_resolve_nested_idempotent
    (fuel₁ fuel₂ : Nat) (st st' : RState) (v r : JValue)
    (out : RState × Except RErr JValue)
    (_h1 : resolve_nested_refs fuel₁ st v = some (st', .ok r))
    (hfree : refFreeV r = true)
    (h2 : resolve_nested_refs fuel₂ st' r = some out) :
    out = (st', .ok r) :=
  (resolveStep_refFree fuel₂).1 st' r out hfree h2

theorem C3_witness :
    resolve_nested_refs 10 (SchemaResolver.init C3rootD)
        (.obj [("p", .obj [("$ref", .str "#/y")])]) =
      some (⟨C3rootD, [], [("#/y", .int 1)]⟩, .ok (.obj [("p", .int 1)])) ∧
    refFreeV (.obj [("p", .int 1)]) = true ∧
    resolve_nested_refs 10 (⟨C3rootD, [], [("#/y", .int 1)]⟩ : RState)
        (.obj [("p", .int 1)]) =
      some (⟨C3rootD, [], [("#/y", .int 1)]⟩, .ok (.obj [("p", .int 1)])) :=
  ⟨rfl, rfl, by
    have h := C3_resolve_nested_idempotent 10 10 (SchemaResolver.init C3rootD)
      ⟨C3rootD, [], [("#/y", .int 1)]⟩
      (.obj [("p", .obj [("$ref", .str "#/y")])]) (.obj [("p", .int 1)])
      (⟨C3rootD, [], [("#/y", .int 1)]⟩, .ok (.obj [("p", .int 1)]))
      rfl rfl rfl
    exact h ▸ rfl⟩

/-! ## Claim C8 — the resolution stack is restored on every exit path -/

/-- C8: every completed `resolve_ref` call — successful return, pointer
failure, circular-reference error, or any other error — restores the
resolution stack to exactly its contents at entry. -/
theorem C8_stack_restored
    (fuel : Nat) (st : RState) (refUri : String)
    (out : RState × Except RErr JValue)
    (h : resolve_ref fuel st refUri = some out) :
    out.1.stack = st.stack :=
  resolveStep_stack fuel st (.ref refUri) out h

/-- C8 witness document. -/
def C8failD : JValue := .obj [("a", .obj [("b", .int 1)])]

theorem C8_witness :
    resolve_ref 10 (SchemaResolver.init C8failD) "#/a/missing" =
      some ((⟨C8failD, [], []⟩ : RState), .error (.keyNotFound "missing")) ∧
    ((⟨C8failD, [], []⟩ : RState), (Except.error (RErr.keyNotFound "missing") :
        Except RErr JValue)).1.stack = (SchemaResolver.init C8failD).stack :=
  ⟨rfl, C8_stack_restored 10 (SchemaResolver.init C8failD) "#/a/missing" _ rfl⟩

/-! ## Claim C10 — the empty fragment resolves to the root itself -/

/-- C10: on any resolver state that has not yet cached `"#"` (and whose
stack does not contain it — no reachable state does, since only
nonempty-fragment URIs are ever pushed), `resolve_ref("#")` succeeds,
returns the root schema itself without pushing the stack and without
resolving any `$ref` inside it, and caches the result under `"#"`. -/
theorem C10_empty_fragment_root
    (fuel : Nat) (st : RState)
    (hcache : lookupEntries st.cache "#" = none)
    (hstack : "#" ∉ st.stack) :
    resolve_ref (fuel + 1) st "#" =
      some ({ st with cache := setKey st.cache "#" st.rootSchema },
        .ok st.rootSchema) := by
  simp only [resolve_ref, resolveStep, hcache]
  rw [if_neg hstack]
  rfl

/-- C10 witness document: the root contains an unresolved (and even
self-referential) `$ref`, returned verbatim. -/
def C10refD : JValue := .obj [("defs", .obj [("a", .obj [("$ref", .str "#")])])]

theorem C10_witness :
    lookupEntries (SchemaResolver.init C10refD).cache "#" = none ∧
    ("#" ∉ (SchemaResolver.init C10refD).stack) ∧
    resolve_ref 5 (SchemaResolver.init C10refD) "#" =
      some (⟨C10refD, [], [("#", C10refD)]⟩, .ok C10refD) :=
  ⟨rfl, by decide,
    C10_empty_fragment_root 4 (SchemaResolver.init C10refD) rfl (by decide)⟩

/-! ## Claim C4 — `allOf` and `oneOf` combinator semantics -/

/-- The error list accumulated by the `AllOf` loop is the list of
messages of the branches that reject the original value, in order. -/
theorem AllOf.loop_fst (value : JValue) :
    ∀ (ts : List Tmpl) (errors : List String) (fv : JValue),
      (AllOf.loop value ts errors fv).1 =
        errors ++ ts.filterMap (fun t =>
          match t value with | .ok _ => none | .error e => some e) := by
  intro ts
  induction ts with
  | nil => intro errors fv; simp [AllOf.loop]
  | cons t rest ih =>
    intro errors fv
    cases ht : t value with
    | ok r => simp [AllOf.loop, ht, ih]
    | error e => simp [AllOf.loop, ht, ih]

/-- When every branch accepts, the loop's running value ends as the
output of the last branch. -/
theorem AllOf.loop_snd (value : JValue) :
    ∀ (ts : List Tmpl) (tl : Tmpl) (errors : List String) (fv : JValue),
      ts.getLast? = some tl →
      (∀ t ∈ ts, isOkE (t value) = true) →
      tl value = .ok ((AllOf.loop value ts errors fv).2) := by
  intro ts
  induction ts with
  | nil => intro tl errors fv hlast; simp at hlast
  | cons t rest ih =>
    intro tl errors fv hlast hall
    have hokt : isOkE (t value) = true := hall t (List.mem_cons_self t rest)
    cases rest with
    | nil =>
      rw [List.getLast?_singleton] at hlast
      cases ht : t value with
      | ok r =>
        have htl : t = tl := Option.some.inj hlast
        rw [← htl]
        simp only [AllOf.loop, ht]
      | error e => rw [ht] at hokt; simp [isOkE] at hokt
    | cons t2 rest2 =>
      have hlast2 : (t2 :: rest2).getLast? = some tl := by
        rw [List.getLast?_cons_cons] at hlast
        exact hlast
      have hall2 : ∀ u ∈ t2 :: rest2, isOkE (u value) = true := by
        intro u hu
        exact hall u (List.mem_cons_of_mem t hu)
      cases ht : t value with
      | ok r =>
        simp only [AllOf.loop, ht]
        exact ih tl errors r hlast2 hall2
      | error e => rw [ht] at hokt; simp [isOkE] at hokt

/-- The valid list of the `OneOf` loop has one element per accepting
branch. -/
theorem SchemaOneOf.loop_length (value : JValue) :
    ∀ (ts : List Tmpl) (i : Nat),
      (SchemaOneOf.loop value i ts).1.length =
        ts.countP (fun t => isOkE (t value)) := by
  intro ts
  induction ts with
  | nil => intro i; simp [SchemaOneOf.loop]
  | cons t rest ih =>
    intro i
    rcases hrec : SchemaOneOf.loop value (i + 1) rest with ⟨valids, errors⟩
    have ih2 := ih (i + 1)
    rw [hrec] at ih2
    cases ht : t value with
    | ok r => simp [SchemaOneOf.loop, hrec, ht, List.countP_cons, isOkE, ih2]
    | error e => simp [SchemaOneOf.loop, hrec, ht, List.countP_cons, isOkE, ih2]

/-- The valid list of the `OneOf` loop is exactly the enumerated list of
accepting branches with their outputs. -/
theorem SchemaOneOf.loop_valids (value : JValue) :
    ∀ (ts : List Tmpl) (i : Nat),
      (SchemaOneOf.loop value i ts).1 =
        (List.enumFrom i ts).filterMap (fun p =>
          match p.2 value with | .ok r => some (p.1, r) | .error _ => none) := by
  intro ts
  induction ts with
  | nil => intro i; simp [SchemaOneOf.loop]
  | cons t rest ih =>
    intro i
    rcases hrec : SchemaOneOf.loop value (i + 1) rest with ⟨valids, errors⟩
    have ih2 := ih (i + 1)
    rw [hrec] at ih2
    cases ht : t value with
    | ok r => simp [SchemaOneOf.loop, hrec, ht, List.enumFrom, ih2]
    | error e => simp [SchemaOneOf.loop, hrec, ht, List.enumFrom, ih2]

/-- Projecting the matched indices out of the filtered enumeration. -/
theorem filterMap_match_indices (value : JValue) :
    ∀ l : List (Nat × Tmpl),
      (l.filterMap (fun p =>
          match p.2 value with | .ok r => some (p.1, r) | .error _ => none)).map
        (fun p => toString p.1) =
        (l.filter (fun p => isOkE (p.2 value))).map (fun p => toString p.1) := by
  intro l
  induction l with
  | nil => rfl
  | cons p rest ih =>
    cases ht : p.2 value with
    | ok r => simp [List.filterMap_cons, List.filter_cons, ht, isOkE, ih]
    | error e => simp [List.filterMap_cons, List.filter_cons, ht, isOkE, ih]

/-- C4: `AllOf.convert` accepts exactly when every branch template
accepts the original input value, and on acceptance returns the value
produced by the last branch; `SchemaOneOf.convert` accepts exactly when
exactly one branch accepts, zero and several matches both failing, and
the several-match diagnostic lists the index of every matching
branch. -/
theorem C4_allOf_oneOf_semantics :
    (∀ (templates : List Tmpl) (value : JValue),
       isOkE (AllOf.convert templates value) = true ↔
         ∀ t ∈ templates, isOkE (t value) = true) ∧
    (∀ (templates : List Tmpl) (value : JValue) (tl : Tmpl) (r : JValue),
       templates.getLast? = some tl → AllOf.convert templates value = .ok r →
       tl value = .ok r) ∧
    (∀ (templates : List Tmpl) (value : JValue),
       isOkE (SchemaOneOf.convert templates value) = true ↔
         templates.countP (fun t => isOkE (t value)) = 1) ∧
    (∀ (templates : List Tmpl) (value : JValue),
       2 ≤ templates.countP (fun t => isOkE (t value)) →
       SchemaOneOf.convert templates value =
         .error ("must match exactly one template; multiple templates matched: "
           ++ joinSep ", "
             ((templates.enum.filter (fun p => isOkE (p.2 value))).map
               (fun p => toString p.1)))) := by
  have hallok : ∀ (ts : List Tmpl) (value : JValue),
      (AllOf.loop value ts [] value).1 = [] ↔
        ∀ t ∈ ts, isOkE (t value) = true := by
    intro ts value
    rw [AllOf.loop_fst value ts [] value]
    simp only [List.nil_append]
    rw [List.filterMap_eq_nil_iff]
    constructor
    · intro h t ht
      have := h t ht
      cases htv : t value with
      | ok r => simp [isOkE]
      | error e => rw [htv] at this; simp at this
    · intro h t ht
      have := h t ht
      cases htv : t value with
      | ok r => simp [htv]
      | error e => rw [htv] at this; simp [isOkE] at this
  refine ⟨?_, ?_, ?_, ?_⟩
  · -- AllOf acceptance
    intro ts value
    rcases hloop : AllOf.loop value ts [] value with ⟨errs, fv⟩
    have hfst := congrArg Prod.fst hloop
    constructor
    · intro hok
      unfold AllOf.convert at hok
      rw [hloop] at hok
      cases errs with
      | nil => exact (hallok ts value).mp (by rw [hloop])
      | cons e0 r0 => simp [isOkE] at hok
    · intro hall
      have herr : errs = [] := by
        have := (hallok ts value).mpr hall
        rw [hloop] at this
        exact this
      subst herr
      unfold AllOf.convert
      rw [hloop]
      simp [isOkE]
  · -- AllOf last-branch value
    intro ts value tl r hlast hconv
    rcases hloop : AllOf.loop value ts [] value with ⟨errs, fv⟩
    unfold AllOf.convert at hconv
    rw [hloop] at hconv
    cases errs with
    | cons e0 r0 => simp at hconv
    | nil =>
      have hall : ∀ t ∈ ts, isOkE (t value) = true :=
        (hallok ts value).mp (by rw [hloop])
      have := AllOf.loop_snd value ts tl [] value hlast hall
      rw [hloop] at this
      simp only [Except.ok.injEq] at hconv
      rw [← hconv]
      exact this
  · -- OneOf acceptance iff exactly one
    intro ts value
    have hlen := SchemaOneOf.loop_length value ts 0
    rcases hloop : SchemaOneOf.loop value 0 ts with ⟨valids, errors⟩
    rw [hloop] at hlen
    unfold SchemaOneOf.convert
    rw [hloop]
    cases valids with
    | nil =>
      have h0 : ts.countP (fun t => isOkE (t value)) = 0 := by
        simpa using hlen.symm
      constructor
      · intro hok; exact Bool.noConfusion hok
      · intro hcnt
        rw [h0] at hcnt
        exact absurd hcnt (by decide)
    | cons iv rest =>
      cases rest with
      | nil =>
        have h1 : ts.countP (fun t => isOkE (t value)) = 1 := by
          simpa using hlen.symm
        constructor
        · intro _; exact h1
        · intro _; rfl
      | cons iv2 rest2 =>
        have h2 : ts.countP (fun t => isOkE (t value)) = rest2.length + 1 + 1 := by
          simpa using hlen.symm
        constructor
        · intro hok; exact Bool.noConfusion hok
        · intro hcnt
          rw [h2] at hcnt
          exact absurd (Nat.succ.inj hcnt) (Nat.succ_ne_zero _)
  · -- OneOf multiple-match diagnostic
    intro ts value hcount
    have hlen := SchemaOneOf.loop_length value ts 0
    have hval := SchemaOneOf.loop_valids value ts 0
    rcases hloop : SchemaOneOf.loop value 0 ts with ⟨valids, errors⟩
    rw [hloop] at hlen hval
    rw [← hlen] at hcount
    unfold SchemaOneOf.convert
    rw [hloop]
    cases valids with
    | nil => simp at hcount
    | cons iv rest =>
      cases rest with
      | nil => simp at hcount
      | cons iv2 rest2 =>
        try simp only []
        have hval2 : (iv :: iv2 :: rest2 : List (Nat × JValue)) =
            (List.enumFrom 0 ts).filterMap (fun p =>
              match p.2 value with | .ok r => some (p.1, r) | .error _ => none) :=
          hval
        have hmap : (iv :: iv2 :: rest2).map (fun p => toString p.1) =
            (ts.enum.filter (fun p => isOkE (p.2 value))).map
              (fun p => toString p.1) := by
          rw [hval2]
          exact filterMap_match_indices value (List.enumFrom 0 ts)
        rw [hmap]

/-- C4 witness branch templates. -/
def C4t1 : Tmpl := fun v => .ok v

def C4t2 : Tmpl := fun _ => .ok (.int 99)

theorem C4_witness :
    ([C4t1, C4t2] : List Tmpl).getLast? = some C4t2 ∧
    AllOf.convert [C4t1, C4t2] (.int 1) = .ok (.int 99) ∧
    C4t2 (.int 1) = .ok (.int 99) ∧
    2 ≤ ([C4t1, C4t2] : List Tmpl).countP (fun t => isOkE (t (.int 1))) ∧
    SchemaOneOf.convert [C4t1, C4t2] (.int 1) =
      .error "must match exactly one template; multiple templates matched: 0, 1" :=
  ⟨rfl, rfl,
    C4_allOf_oneOf_semantics.2.1 [C4t1, C4t2] (.int 1) C4t2 (.int 99) rfl rfl,
    by decide,
    C4_allOf_oneOf_semantics.2.2.2 [C4t1, C4t2] (.int 1) (by decide)⟩

/-! ## Claim C6 — integer validator strictness -/

/-- An integer template with no constraints. -/
def noIntConstraints : SchemaInteger := ⟨none, none, none, none, none⟩

/-- Python float `15.5` as an exact rational. -/
def rat155 : Rat := ⟨31, 2, by decide, by decide⟩

/-- Truncation of an integral rational is its numerator. -/
theorem pyIntOfFloat_den_one {q : Rat} (h : q.den = 1) : pyIntOfFloat q = q.num := by
  unfold pyIntOfFloat
  rw [h]
  exact Int.tdiv_one q.num

/-- C6: the unconstrained integer validator accepts the float `15.0`,
returning the integer `15`; rejects the float `15.5`; rejects the
boolean `true`; rejects every boolean; and accepts a float exactly when
it has no fractional part, coercing it to the integer it denotes. -/
theorem C6_integer_validator :
    SchemaInteger.convert noIntConstraints (.float ((15 : Int) : Rat)) =
      .ok (.int 15) ∧
    SchemaInteger.convert noIntConstraints (.float rat155) =
      .error "must be an integer, not a float" ∧
    SchemaInteger.convert noIntConstraints (.bool true) =
      .error "must be an integer, not a boolean" ∧
    (∀ b : Bool, SchemaInteger.convert noIntConstraints (.bool b) =
      .error "must be an integer, not a boolean") ∧
    (∀ q : Rat, q.den = 1 →
      SchemaInteger.convert noIntConstraints (.float q) = .ok (.int q.num)) ∧
    (∀ q : Rat, q.den ≠ 1 →
      SchemaInteger.convert noIntConstraints (.float q) =
        .error "must be an integer, not a float") := by
  refine ⟨rfl, rfl, rfl, ?_, ?_, ?_⟩
  · intro b; cases b <;> rfl
  · intro q hq
    have htr : pyIntOfFloat q = q.num := pyIntOfFloat_den_one hq
    have hcast : ((pyIntOfFloat q : Int) : Rat) = q := by
      rw [htr]
      exact (Rat.den_eq_one_iff q).mp hq
    simp only [SchemaInteger.convert]
    rw [if_pos hcast.symm]
    simp [checkOpt, noIntConstraints, htr]
  · intro q hq
    have hne : ¬ (q = ((pyIntOfFloat q : Int) : Rat)) := by
      intro e
      apply hq
      rw [e]
      exact Rat.den_intCast _
    simp only [SchemaInteger.convert]
    rw [if_neg hne]

theorem C6_witness :
    (((7 : Int) : Rat)).den = 1 ∧
    SchemaInteger.convert noIntConstraints (.float ((7 : Int) : Rat)) =
      .ok (.int (((7 : Int) : Rat)).num) :=
  ⟨rfl, C6_integer_validator.2.2.2.2.1 ((7 : Int) : Rat) rfl⟩

/-! ## Claim C7 — format registry lookup semantics -/

/-- A format predicate rejecting every string. -/
def rejectAll : String → Bool := fun _ => false

/-- A registry with a predicate registered under the empty name. -/
def C7reg : FormatRegistry := [("", rejectAll)]

/-- A string template compiled from a schema carrying `format: ""`. -/
def C7emptyFmtT : SchemaString := ⟨none, none, none, some ""⟩

/-- C7, refuted as stated: with a rejecting predicate registered under
the empty format name and a template whose format name is that empty
string, `convert` accepts the value even though the registered predicate
returns `false` for it — `if self.string_format:` treats the empty name
as falsy and skips the format check entirely. -/
theorem C7_counterexample :
    get_format_validator C7reg "" = some rejectAll ∧
    rejectAll "x" = false ∧
    SchemaString.convert C7emptyFmtT C7reg (.str "x") = .ok (.str "x") :=
  ⟨rfl, rfl, rfl⟩

/-- C7 (amended): for every string value satisfying the template's
pattern and length constraints and every NONEMPTY format name: an
unregistered name makes the format check a silent no-op (the value is
accepted, never an error); a registered name whose predicate rejects the
value makes `convert` fail with the format validation error; a
registered name whose predicate accepts leaves the value accepted.  (An
empty format name is always a no-op, even when registered, by Python
truthiness — see the counterexample.) -/
theorem C7_format_lookup
    (reg : FormatRegistry) (t : SchemaString) (s : String) (f : String)
    (hfmt : t.string_format = some f) (hne : f ≠ "")
    (hpat : confuseStringConvert t.pattern (.str s) = .ok s)
    (hmin : ∀ m, t.min_length = some m → ¬ s.length < m)
    (hmax : ∀ m, t.max_length = some m → ¬ s.length > m) :
    (get_format_validator reg f = none →
      SchemaString.convert t reg (.str s) = .ok (.str s)) ∧
    (∀ fv, get_format_validator reg f = some fv → fv s = false →
      SchemaString.convert t reg (.str s) = .error ("must be a valid " ++ f)) ∧
    (∀ fv, get_format_validator reg f = some fv → fv s = true →
      SchemaString.convert t reg (.str s) = .ok (.str s)) := by
  have hbody : SchemaString.convert t reg (.str s) =
      (match get_format_validator reg f with
       | some fv => if ¬ fv s then .error ("must be a valid " ++ f) else .ok (.str s)
       | none => .ok (.str s)) := by
    unfold SchemaString.convert
    rw [hpat]
    cases hm : t.min_length with
    | none =>
      cases hx : t.max_length with
      | none => simp [checkOpt, hfmt, hne]
      | some mx => simp [checkOpt, hfmt, hne, hmax mx hx]
    | some mn =>
      cases hx : t.max_length with
      | none => simp [checkOpt, hfmt, hne, hmin mn hm]
      | some mx => simp [checkOpt, hfmt, hne, hmin mn hm, hmax mx hx]
  refine ⟨?_, ?_, ?_⟩
  · intro hnone
    rw [hbody, hnone]
  · intro fv hsome hrej
    rw [hbody, hsome]
    simp [hrej]
  · intro fv hsome hacc
    rw [hbody, hsome]
    simp [hacc]

/-- C7 witness: a registered three-letter format predicate. -/
def C7wPred : String → Bool := fun s => decide (s.length = 3)

/-- C7 witness registry. -/
def C7wReg : FormatRegistry := [("tri", C7wPred)]

/-- C7 witness template. -/
def C7wT : SchemaString := ⟨none, none, none, some "tri"⟩

theorem C7_witness :
    C7wT.string_format = some "tri" ∧
    get_format_validator C7wReg "tri" = some C7wPred ∧
    C7wPred "ab" = false ∧
    SchemaString.convert C7wT C7wReg (.str "ab") =
      .error ("must be a valid " ++ "tri") ∧
    get_format_validator C7wReg "nope" = none :=
  ⟨rfl, rfl, rfl,
    (C7_format_lookup C7wReg C7wT "ab" "tri" rfl (by decide) rfl
        (fun m hm => Option.noConfusion hm)
        (fun m hm => Option.noConfusion hm)).2.1 C7wPred rfl rfl,
    rfl⟩

/-! ## Claim C5 — conditional (if/then/else) semantics -/

/-- C5 `if` schema. -/
def C5ifS : JValue := .obj [("type", .str "string")]

/-- C5 `then` schema (string shape inferred from `minLength`). -/
def C5thenS : JValue := .obj [("minLength", .int 3)]

/-- C5 `else` schema. -/
def C5elseS : JValue := .obj [("type", .str "number")]

/-- C5: for the conditional built from `if: {type: string}`,
`then: {minLength: 3}`, `else: {type: number}`, input `"ab"` fails
(matches `if`, fails `then`), `"abc"` is accepted, `5` is accepted
(fails `if`, matches `else`), `true` fails (fails `if` and `else`); in
general, over the spec-modelled compiler: a value conforming to `if`
is accepted exactly when `then` (when present) accepts it; with `then`
absent it is accepted outright; a value not conforming to `if` with
`else` present is accepted exactly when `else` accepts it; and with
`else` absent the `if` non-conformance itself is the failure. -/
theorem C5_conditional_semantics :
    Conditional.convert [] C5ifS (some C5thenS) (some C5elseS) (.str "ab") =
      some (.error
        "conditional validation failed: then condition: must be at least 3 characters long") ∧
    Conditional.convert [] C5ifS (some C5thenS) (some C5elseS) (.str "abc") =
      some (.ok (.str "abc")) ∧
    Conditional.convert [] C5ifS (some C5thenS) (some C5elseS) (.int 5) =
      some (.ok (.int 5)) ∧
    acceptedC (Conditional.convert [] C5ifS (some C5thenS) (some C5elseS)
      (.bool true)) = false ∧
    (∀ (reg : FormatRegistry) (ifS thenS : JValue) (elseS : Option JValue)
        (value : JValue) (ifT thenT : Tmpl) (r : JValue),
       to_template reg ifS = some ifT → to_template reg thenS = some thenT →
       ifT value = .ok r →
       acceptedC (Conditional.convert reg ifS (some thenS) elseS value) =
         isOkE (thenT value)) ∧
    (∀ (reg : FormatRegistry) (ifS : JValue) (elseS : Option JValue)
        (value : JValue) (ifT : Tmpl) (r : JValue),
       to_template reg ifS = some ifT → ifT value = .ok r →
       Conditional.convert reg ifS none elseS value = some (.ok r)) ∧
    (∀ (reg : FormatRegistry) (ifS elseS : JValue) (thenS : Option JValue)
        (value : JValue) (ifT elseT : Tmpl) (e : String),
       to_template reg ifS = some ifT → to_template reg elseS = some elseT →
       ifT value = .error e →
       acceptedC (Conditional.convert reg ifS thenS (some elseS) value) =
         isOkE (elseT value)) ∧
    (∀ (reg : FormatRegistry) (ifS : JValue) (thenS : Option JValue)
        (value : JValue) (ifT : Tmpl) (e : String),
       to_template reg ifS = some ifT → ifT value = .error e →
       Conditional.convert reg ifS thenS none value =
         some (.error ("conditional validation failed: " ++
           joinSep "; " ["if condition: " ++ e, "if condition failed"]))) := by
  refine ⟨rfl, rfl, rfl, rfl, ?_, ?_, ?_, ?_⟩
  · intro reg ifS thenS elseS value ifT thenT r hif hthen hv
    cases hb : thenT value with
    | ok rb => simp [Conditional.convert, hif, hthen, hv, hb, acceptedC, isOkE]
    | error eb => simp [Conditional.convert, hif, hthen, hv, hb, acceptedC, isOkE]
  · intro reg ifS elseS value ifT r hif hv
    simp [Conditional.convert, hif, hv, acceptedC, isOkE]
  · intro reg ifS elseS thenS value ifT elseT e hif helse hv
    cases hb : elseT value with
    | ok rb => simp [Conditional.convert, hif, helse, hv, hb, acceptedC, isOkE]
    | error eb => simp [Conditional.convert, hif, helse, hv, hb, acceptedC, isOkE]
  · intro reg ifS thenS value ifT e hif hv
    simp [Conditional.convert, hif, hv, acceptedC, isOkE, joinSep]

theorem C5_witness :
    to_template [] C5ifS = some (SchemaString.convert ⟨none, none, none, none⟩ []) ∧
    SchemaString.convert ⟨none, none, none, none⟩ [] (.int 5) =
      .error "must be a string" ∧
    to_template [] C5elseS =
      some (SchemaNumber.convert ⟨none, none, none, none, none⟩) ∧
    acceptedC (Conditional.convert [] C5ifS (some C5thenS) (some C5elseS) (.int 5)) =
      isOkE (SchemaNumber.convert ⟨none, none, none, none, none⟩ (.int 5)) :=
  ⟨rfl, rfl, rfl,
    C5_conditional_semantics.2.2.2.2.2.2.1 [] C5ifS C5elseS (some C5thenS) (.int 5)
      (SchemaString.convert ⟨none, none, none, none⟩ [])
      (SchemaNumber.convert ⟨none, none, none, none, none⟩)
      "must be a string" rfl rfl rfl⟩
